import Mathlib

/-!
Verification of the batch PDF-fetch pipeline (`download_script.py`, with the
shared sanitizer also present in `zhuanchu_scipt.py`).

The embedding models:
* `extract_urls` — the regex scan `https?://[^\s一-龥，。！；）】」》\)\]\}]+`
  over a free-text cell (with the `pd.isna` null guard);
* `sanitize_filename` — forbidden-character substitution followed by a
  200-character truncation;
* `download_pdf` — the retry loop with exponential backoff over an abstract
  network environment assigning a result to each attempt index;
* `main` — the per-row / per-URL orchestration, counters and failure records.
-/

/-! ## Character classes of the URL regex -/

/-- Characters matched by Python's `\s` on a `str` (Unicode whitespace as
recognized by the `re` module). -/
def isPythonSpace (c : Char) : Bool :=
  c.val = 0x09 || c.val = 0x0a || c.val = 0x0b || c.val = 0x0c || c.val = 0x0d ||
  (0x1c ≤ c.val && c.val ≤ 0x1f) || c.val = 0x20 || c.val = 0x85 || c.val = 0xa0 ||
  c.val = 0x1680 || (0x2000 ≤ c.val && c.val ≤ 0x200a) || c.val = 0x2028 ||
  c.val = 0x2029 || c.val = 0x202f || c.val = 0x205f || c.val = 0x3000

/-- The CJK range `一-龥` excluded by the regex character class. -/
def isCjk (c : Char) : Bool :=
  0x4e00 ≤ c.val && c.val ≤ 0x9fa5

/-- The explicit punctuation terminators of the regex character class:
`，。！；）】」》` and the escaped `) ] }`. -/
def isTerminatorPunct (c : Char) : Bool :=
  c = '，' || c = '。' || c = '！' || c = '；' || c = '）' || c = '】' ||
  c = '」' || c = '》' || c = ')' || c = ']' || c = '}'

/-- A character admissible inside a URL body: the complement of the regex's
negated character class. -/
def isUrlChar (c : Char) : Bool :=
  !(isPythonSpace c || isCjk c || isTerminatorPunct c)

/-! ## The URL scanner (Python `re.findall` on the pattern) -/

/-- The seven characters of the literal alternative `http://`. -/
def httpPfx : List Char := ['h', 't', 't', 'p', ':', '/', '/']

/-- The eight characters of the literal alternative `https://`. -/
def httpsPfx : List Char := ['h', 't', 't', 'p', 's', ':', '/', '/']

/-- Attempt to match `https?://[urlchar]+` at the head of the character list.
On success returns the matched characters and the remainder of the input,
mirroring how the regex engine resumes after a match. -/
def matchUrlAt : List Char → Option (List Char × List Char)
  | 'h' :: 't' :: 't' :: 'p' :: 's' :: ':' :: '/' :: '/' :: r =>
    if (r.takeWhile isUrlChar).isEmpty then none
    else some (httpsPfx ++ r.takeWhile isUrlChar, r.dropWhile isUrlChar)
  | 'h' :: 't' :: 't' :: 'p' :: ':' :: '/' :: '/' :: r =>
    if (r.takeWhile isUrlChar).isEmpty then none
    else some (httpPfx ++ r.takeWhile isUrlChar, r.dropWhile isUrlChar)
  | _ => none

/-- Fueled left-to-right scan: at each position try a match; on success emit
it and resume after the match, otherwise advance one character. The fuel is
an upper bound on the number of positions still to visit. -/
def scanUrlsFuel : Nat → List Char → List (List Char)
  | 0, _ => []
  | _ + 1, [] => []
  | fuel + 1, c :: cs =>
    match matchUrlAt (c :: cs) with
    | some (m, rest) => m :: scanUrlsFuel fuel rest
    | none => scanUrlsFuel fuel cs

/-- All matches of the URL pattern in a character list, leftmost first,
non-overlapping — the semantics of `re.findall`. -/
def scanUrls (l : List Char) : List (List Char) :=
  scanUrlsFuel l.length l

/-- Model of `extract_urls`: `None` stands for a `pd.isna` input, which
yields `[]`; otherwise all regex matches are returned in order. -/
def extract_urls : Option String → List String
  | none => []
  | some s => (scanUrls s.data).map (fun l => String.mk l)

/-! ## The filename sanitizer -/

/-- Membership in the forbidden set `< > : " / \ | ? *` of
`sanitize_filename`. -/
def isInvalidChar (c : Char) : Bool :=
  c = '<' || c = '>' || c = ':' || c = '"' || c = '/' || c = '\\' ||
  c = '|' || c = '?' || c = '*'

/-- Substitution step of the sanitizer: forbidden characters become `_`. -/
def subInvalid (c : Char) : Char :=
  if isInvalidChar c then '_' else c

/-- Model of `sanitize_filename`: substitute every forbidden character by
`_`, then truncate to 200 characters when longer. -/
def sanitize_filename (s : String) : String :=
  if (s.data.map subInvalid).length > 200 then String.mk ((s.data.map subInvalid).take 200)
  else String.mk (s.data.map subInvalid)

namespace ZhuanchuScript

/-- The `sanitize_filename` of `zhuanchu_scipt.py`, textually identical to the
one in `download_script.py`. -/
def sanitize_filename (s : String) : String :=
  if (s.data.map subInvalid).length > 200 then String.mk ((s.data.map subInvalid).take 200)
  else String.mk (s.data.map subInvalid)

end ZhuanchuScript

/-! ## Basic sanitizer lemmas -/

theorem subInvalid_valid (c : Char) : isInvalidChar (subInvalid c) = false := by
  unfold subInvalid
  by_cases h : isInvalidChar c = true
  · rw [if_pos h]
    decide
  · rw [if_neg h]
    simpa using h

theorem subInvalid_of_valid (c : Char) (h : isInvalidChar c = false) :
    subInvalid c = c := by
  simp [subInvalid, h]

theorem sanitize_filename_data (s : String) :
    (sanitize_filename s).data = (s.data.map subInvalid).take 200 := by
  unfold sanitize_filename
  split
  · rfl
  · next h =>
    have hle : (s.data.map subInvalid).length ≤ 200 := by omega
    show s.data.map subInvalid = (s.data.map subInvalid).take 200
    rw [List.take_of_length_le hle]

theorem sanitize_filename_no_invalid (s : String) (c : Char)
    (hc : c ∈ (sanitize_filename s).data) : isInvalidChar c = false := by
  rw [sanitize_filename_data] at hc
  have hc2 : c ∈ s.data.map subInvalid := List.take_subset 200 _ hc
  obtain ⟨a, _, rfl⟩ := List.mem_map.mp hc2
  exact subInvalid_valid a

theorem sanitize_filename_length_le (s : String) :
    (sanitize_filename s).length ≤ 200 := by
  show (sanitize_filename s).data.length ≤ 200
  rw [sanitize_filename_data, List.length_take]
  omega

/-- C7: the output of the sanitizer contains none of the characters
`< > : " / \ | ? *`, has at most 200 characters, and equals the
forbidden-character substitution of the input followed by (not preceded by)
the 200-character truncation. -/
theorem claim_C7 (s : String) :
    (∀ c ∈ (sanitize_filename s).data, isInvalidChar c = false) ∧
      (sanitize_filename s).length ≤ 200 ∧
      sanitize_filename s = String.mk ((s.data.map subInvalid).take 200) := by
  refine ⟨fun c hc => sanitize_filename_no_invalid s c hc, sanitize_filename_length_le s, ?_⟩
  have h := sanitize_filename_data s
  calc sanitize_filename s = String.mk (sanitize_filename s).data := rfl
    _ = String.mk ((s.data.map subInvalid).take 200) := by rw [h]

theorem sanitize_filename_fixed (s : String)
    (hval : ∀ c ∈ s.data, isInvalidChar c = false) (hlen : s.data.length ≤ 200) :
    sanitize_filename s = s := by
  have hmap : s.data.map subInvalid = s.data := by
    have := List.map_congr_left (l := s.data) (f := subInvalid) (g := id)
      (fun a ha => subInvalid_of_valid a (hval a ha))
    simpa using this
  unfold sanitize_filename
  rw [hmap]
  rw [if_neg (by omega)]

/-- C10: the sanitizer is idempotent — sanitizing an already-sanitized name
changes nothing — and the copy of the sanitizer in `zhuanchu_scipt.py`
agrees with the one in `download_script.py` on every input. -/
theorem claim_C10 (s : String) :
    sanitize_filename (sanitize_filename s) = sanitize_filename s ∧
      ZhuanchuScript.sanitize_filename s = sanitize_filename s := by
  refine ⟨?_, rfl⟩
  apply sanitize_filename_fixed
  · exact fun c hc => sanitize_filename_no_invalid s c hc
  · exact sanitize_filename_length_le s

/-! ## Scanner lemmas -/

theorem matchUrlAt_some_head (l : List Char) (x : List Char × List Char)
    (h : matchUrlAt l = some x) : ∃ t, l = 'h' :: t := by
  unfold matchUrlAt at h
  split at h
  · exact ⟨_, rfl⟩
  · exact ⟨_, rfl⟩
  · exact Option.noConfusion h

theorem matchUrlAt_some_length (l m rest : List Char)
    (h : matchUrlAt l = some (m, rest)) : rest.length < l.length := by
  unfold matchUrlAt at h
  split at h
  · rename_i r
    split at h
    · exact Option.noConfusion h
    · simp only [Option.some.injEq, Prod.mk.injEq] at h
      obtain ⟨h1, h2⟩ := h
      have hle : (r.dropWhile isUrlChar).length ≤ r.length :=
        (List.dropWhile_sublist isUrlChar).length_le
      simp only [← h2, List.length_cons]
      omega
  · rename_i r
    split at h
    · exact Option.noConfusion h
    · simp only [Option.some.injEq, Prod.mk.injEq] at h
      obtain ⟨h1, h2⟩ := h
      have hle : (r.dropWhile isUrlChar).length ≤ r.length :=
        (List.dropWhile_sublist isUrlChar).length_le
      simp only [← h2, List.length_cons]
      omega
  · exact Option.noConfusion h

theorem scanUrlsFuel_eq (fuel₁ : Nat) (fuel₂ : Nat) (l : List Char)
    (h1 : l.length ≤ fuel₁) (h2 : l.length ≤ fuel₂) :
    scanUrlsFuel fuel₁ l = scanUrlsFuel fuel₂ l := by
  induction fuel₁ generalizing fuel₂ l with
  | zero =>
    have hl : l = [] := by cases l <;> simp_all
    subst hl
    cases fuel₂ <;> rfl
  | succ f ih =>
    cases l with
    | nil => cases fuel₂ <;> rfl
    | cons c cs =>
      cases fuel₂ with
      | zero => simp at h2
      | succ f₂ =>
        simp only [List.length_cons] at h1 h2
        cases hm : matchUrlAt (c :: cs) with
        | none =>
          simp only [scanUrlsFuel, hm]
          exact ih f₂ cs (by omega) (by omega)
        | some pr =>
          obtain ⟨m, rest⟩ := pr
          have hr : rest.length < (c :: cs).length := matchUrlAt_some_length _ _ _ hm
          simp only [List.length_cons] at hr
          simp only [scanUrlsFuel, hm]
          rw [ih f₂ rest (by omega) (by omega)]

theorem scanUrls_cons_none (c : Char) (cs : List Char)
    (h : matchUrlAt (c :: cs) = none) : scanUrls (c :: cs) = scanUrls cs := by
  show scanUrlsFuel (c :: cs).length (c :: cs) = scanUrlsFuel cs.length cs
  simp only [List.length_cons, scanUrlsFuel, h]

theorem scanUrls_cons_some (c : Char) (cs m rest : List Char)
    (h : matchUrlAt (c :: cs) = some (m, rest)) :
    scanUrls (c :: cs) = m :: scanUrls rest := by
  have hr := matchUrlAt_some_length _ _ _ h
  simp only [List.length_cons] at hr
  show scanUrlsFuel (c :: cs).length (c :: cs) = m :: scanUrlsFuel rest.length rest
  simp only [List.length_cons, scanUrlsFuel, h]
  exact congrArg (m :: ·) (scanUrlsFuel_eq _ _ _ (by omega) le_rfl)

/-! ## Declarative layout of URLs inside a text -/

/-- A stretch of text made only of characters outside the URL body class
(whitespace, CJK, or the punctuation terminators). -/
def AllSep (l : List Char) : Prop := ∀ c ∈ l, isUrlChar c = false

/-- A well-formed URL substring: one of the two scheme literals followed by a
nonempty run of URL-body characters. -/
def WellFormedUrl (u : List Char) : Prop :=
  ∃ body, body ≠ [] ∧ (∀ c ∈ body, isUrlChar c = true) ∧
    (u = httpPfx ++ body ∨ u = httpsPfx ++ body)

/-- The text right after a URL either ends the input or starts with a
terminating character (whitespace, CJK, or a punctuation terminator). -/
def Terminated (rest : List Char) : Prop :=
  rest = [] ∨ ∃ c cs, rest = c :: cs ∧ isUrlChar c = false

/-- A text consisting of separator stretches interleaved with well-formed,
properly terminated URL substrings, listed in order of appearance. -/
inductive UrlLayout : List Char → List (List Char) → Prop
  | nil (sep : List Char) (hsep : AllSep sep) : UrlLayout sep []
  | cons (sep u rest : List Char) (urls : List (List Char))
      (hsep : AllSep sep) (hu : WellFormedUrl u) (hterm : Terminated rest)
      (hrec : UrlLayout rest urls) : UrlLayout (sep ++ (u ++ rest)) (u :: urls)

theorem takeWhile_terminated (rest : List Char) (hterm : Terminated rest) :
    rest.takeWhile isUrlChar = [] := by
  rcases hterm with rfl | ⟨c, cs, rfl, hc⟩
  · rfl
  · simp [List.takeWhile_cons_of_neg, hc]

theorem dropWhile_terminated (rest : List Char) (hterm : Terminated rest) :
    rest.dropWhile isUrlChar = rest := by
  rcases hterm with rfl | ⟨c, cs, rfl, hc⟩
  · rfl
  · simp [List.dropWhile_cons_of_neg, hc]

theorem matchUrlAt_https (body rest : List Char) (hne : body ≠ [])
    (hbody : ∀ c ∈ body, isUrlChar c = true) (hterm : Terminated rest) :
    matchUrlAt (httpsPfx ++ (body ++ rest)) = some (httpsPfx ++ body, rest) := by
  have htw : (body ++ rest).takeWhile isUrlChar = body := by
    rw [List.takeWhile_append_of_pos hbody, takeWhile_terminated rest hterm,
      List.append_nil]
  have hdw : (body ++ rest).dropWhile isUrlChar = rest := by
    rw [List.dropWhile_append_of_pos hbody, dropWhile_terminated rest hterm]
  show matchUrlAt ('h' :: 't' :: 't' :: 'p' :: 's' :: ':' :: '/' :: '/' :: (body ++ rest)) = _
  simp only [matchUrlAt, htw, hdw]
  rw [if_neg (by simp [hne])]

theorem matchUrlAt_http (body rest : List Char) (hne : body ≠ [])
    (hbody : ∀ c ∈ body, isUrlChar c = true) (hterm : Terminated rest) :
    matchUrlAt (httpPfx ++ (body ++ rest)) = some (httpPfx ++ body, rest) := by
  have htw : (body ++ rest).takeWhile isUrlChar = body := by
    rw [List.takeWhile_append_of_pos hbody, takeWhile_terminated rest hterm,
      List.append_nil]
  have hdw : (body ++ rest).dropWhile isUrlChar = rest := by
    rw [List.dropWhile_append_of_pos hbody, dropWhile_terminated rest hterm]
  show matchUrlAt ('h' :: 't' :: 't' :: 'p' :: ':' :: '/' :: '/' :: (body ++ rest)) = _
  simp only [matchUrlAt, htw, hdw]
  rw [if_neg (by simp [hne])]

theorem scanUrls_sep_append (sep rest : List Char) (hsep : AllSep sep) :
    scanUrls (sep ++ rest) = scanUrls rest := by
  induction sep with
  | nil => rfl
  | cons c cs ih =>
    have hc : isUrlChar c = false := hsep c (by simp)
    have hnone : matchUrlAt (c :: (cs ++ rest)) = none := by
      cases hm : matchUrlAt (c :: (cs ++ rest)) with
      | none => rfl
      | some x =>
        obtain ⟨t, ht⟩ := matchUrlAt_some_head _ _ hm
        have hch : c = 'h' := by injection ht
        subst hch
        exact absurd hc (by decide)
    rw [List.cons_append, scanUrls_cons_none _ _ hnone]
    exact ih (fun a ha => hsep a (by simp [ha]))

theorem scanUrls_layout (text : List Char) (urls : List (List Char))
    (h : UrlLayout text urls) : scanUrls text = urls := by
  induction h with
  | nil sep hsep =>
    have := scanUrls_sep_append sep [] hsep
    rw [List.append_nil] at this
    rw [this]
    rfl
  | cons sep u rest urls hsep hu hterm hrec ih =>
    rw [scanUrls_sep_append sep (u ++ rest) hsep]
    obtain ⟨body, hne, hbody, hu'⟩ := hu
    rcases hu' with rfl | rfl
    · rw [List.append_assoc]
      have hm := matchUrlAt_http body rest hne hbody hterm
      have hstep : scanUrls (httpPfx ++ (body ++ rest)) =
          (httpPfx ++ body) :: scanUrls rest :=
        scanUrls_cons_some 'h' ('t' :: 't' :: 'p' :: ':' :: '/' :: '/' :: (body ++ rest)) _ _ hm
      rw [hstep, ih]
    · rw [List.append_assoc]
      have hm := matchUrlAt_https body rest hne hbody hterm
      have hstep : scanUrls (httpsPfx ++ (body ++ rest)) =
          (httpsPfx ++ body) :: scanUrls rest :=
        scanUrls_cons_some 'h' ('t' :: 't' :: 'p' :: 's' :: ':' :: '/' :: '/' :: (body ++ rest)) _ _ hm
      rw [hstep, ih]

/-- C3: for a text that is an interleaving of separator stretches
(whitespace, CJK characters, or the punctuation terminators
，。！；）】」》 ) ] \x7d) with N well-formed http:// or https:// substrings,
each terminated by such a character or by the end of the text, the extractor
returns exactly those N URL strings, in order of appearance, preserving
duplicate occurrences. -/
theorem claim_C3 (text : List Char) (urls : List (List Char))
    (h : UrlLayout text urls) :
    extract_urls (some (String.mk text)) = urls.map (fun l => String.mk l) := by
  show (scanUrls (String.mk text).data).map (fun l => String.mk l) = _
  rw [show (String.mk text).data = text from rfl, scanUrls_layout text urls h]

/-- Witness for C3: the concrete text "https://a.b https://a.b" contains two
well-formed URL occurrences (identical ones), and both are returned in
order. -/
theorem claim_C3_witness :
    extract_urls (some "https://a.b https://a.b") = ["https://a.b", "https://a.b"] := by
  have hlay : UrlLayout
      ([] ++ ((httpsPfx ++ ['a', '.', 'b']) ++
        ([' '] ++ ((httpsPfx ++ ['a', '.', 'b']) ++ []))))
      [httpsPfx ++ ['a', '.', 'b'], httpsPfx ++ ['a', '.', 'b']] := by
    apply UrlLayout.cons
    · intro c hc
      simp at hc
    · exact ⟨['a', '.', 'b'], by decide, by decide, Or.inr rfl⟩
    · exact Or.inr ⟨' ', _, rfl, by decide⟩
    · apply UrlLayout.cons
      · intro c hc
        simp at hc
        subst hc
        decide
      · exact ⟨['a', '.', 'b'], by decide, by decide, Or.inr rfl⟩
      · exact Or.inl rfl
      · exact UrlLayout.nil [] (by intro c hc; simp at hc)
  have h := claim_C3 _ _ hlay
  have hs : String.mk ([] ++ ((httpsPfx ++ ['a', '.', 'b']) ++
      ([' '] ++ ((httpsPfx ++ ['a', '.', 'b']) ++ [])))) = "https://a.b https://a.b" := by
    decide
  have hu : String.mk (httpsPfx ++ ['a', '.', 'b']) = "https://a.b" := by decide
  rw [hs] at h
  simp only [List.map_cons, List.map_nil, hu] at h
  exact h

/-- C9: for a null-equivalent remark input (the pd.isna guard), the extractor
returns the empty sequence instead of signalling an error. -/
theorem claim_C9 : extract_urls none = [] := rfl

/-! ## The fetch executor (download_pdf) -/

/-- What the network does on one attempt: an HTTP status error raised by
raise_for_status, a timeout, a connection error, some other exception with
its message, or a fully streamed body leaving a file of the given size. -/
inductive AttemptResult
  | httpError (status : Nat)
  | timeout
  | connError
  | otherError (msg : String)
  | body (size : Nat)
deriving DecidableEq

/-- Tagged outcome of one fetch: a fresh successful write, a pre-existing
non-empty file skipped, or exhaustion with the last error message. -/
inductive FetchOutcome
  | success
  | skipped
  | failed (reason : String)
deriving DecidableEq

/-- Observable result of the fetch executor: the outcome, the number of
network requests performed, the backoff waits in seconds in order, and the
number of times an empty downloaded file was deleted. -/
structure FetchResult where
  outcome : FetchOutcome
  attemptsMade : Nat
  sleeps : List Nat
  emptyDeletes : Nat
deriving DecidableEq

/-- Error message produced by one attempt, mirroring the except clauses of
download_pdf: HTTP status errors, timeouts, connection errors, the generic
handler, and the empty-file check after a complete write. -/
def attemptError : AttemptResult → Option String
  | .httpError status => some ("HTTP错误 " ++ toString status)
  | .timeout => some "请求超时"
  | .connError => some "连接错误"
  | .otherError msg => some msg
  | .body n => if n = 0 then some "下载的文件为空" else none

/-- Number of file deletions performed by one attempt: exactly one when a
complete write produced a zero-byte file (os.remove before the raise). -/
def attemptDeletes : AttemptResult → Nat
  | .body 0 => 1
  | _ => 0

/-- The retry loop of download_pdf, indexed by the current attempt number
and the count of loop iterations still available; the latter is
maxRetries - attempt at every reachable call. A successful attempt returns
at once; a failing attempt backs off 2^attempt seconds and retries when
attempt < maxRetries - 1, and otherwise returns Failed with that error
message. Exhausting the range (only possible when maxRetries = 0) yields
the closing 所有重试都失败 return. -/
def downloadAttempts (env : Nat → AttemptResult) (maxRetries : Nat) :
    Nat → Nat → FetchResult
  | _, 0 =>
    { outcome := .failed "所有重试都失败", attemptsMade := 0, sleeps := [],
      emptyDeletes := 0 }
  | attempt, remaining + 1 =>
    match attemptError (env attempt) with
    | none =>
      { outcome := .success, attemptsMade := 1, sleeps := [], emptyDeletes := 0 }
    | some errorMsg =>
      if attempt < maxRetries - 1 then
        { outcome := (downloadAttempts env maxRetries (attempt + 1) remaining).outcome,
          attemptsMade := (downloadAttempts env maxRetries (attempt + 1) remaining).attemptsMade + 1,
          sleeps := 2 ^ attempt :: (downloadAttempts env maxRetries (attempt + 1) remaining).sleeps,
          emptyDeletes := attemptDeletes (env attempt) +
            (downloadAttempts env maxRetries (attempt + 1) remaining).emptyDeletes }
      else
        { outcome := .failed errorMsg, attemptsMade := 1, sleeps := [],
          emptyDeletes := attemptDeletes (env attempt) }

/-- Model of download_pdf: if the target file already exists with non-zero
size, return Skipped without touching the network; otherwise run the retry
loop from attempt 0 over the range of maxRetries iterations. -/
def download_pdf (fileExists : Bool) (fileSize : Nat) (env : Nat → AttemptResult)
    (maxRetries : Nat) : FetchResult :=
  if fileExists = true ∧ 0 < fileSize then
    { outcome := .skipped, attemptsMade := 0, sleeps := [], emptyDeletes := 0 }
  else downloadAttempts env maxRetries 0 maxRetries

/-- C2: when the target path already exists with size > 0, the fetch
executor returns Skipped at once and performs zero network requests. -/
theorem claim_C2 (fileExists : Bool) (fileSize : Nat) (env : Nat → AttemptResult)
    (maxRetries : Nat) (hex : fileExists = true) (hsz : 0 < fileSize) :
    download_pdf fileExists fileSize env maxRetries =
      { outcome := .skipped, attemptsMade := 0, sleeps := [], emptyDeletes := 0 } := by
  unfold download_pdf
  rw [if_pos ⟨hex, hsz⟩]

/-- Witness for C2: a pre-existing one-byte file is skipped with zero
attempts even though every network attempt would fail. -/
theorem claim_C2_witness :
    download_pdf true 1 (fun _ => AttemptResult.httpError 500) 3 =
      { outcome := .skipped, attemptsMade := 0, sleeps := [], emptyDeletes := 0 } :=
  claim_C2 true 1 (fun _ => AttemptResult.httpError 500) 3 rfl (by decide)

theorem downloadAttempts_allHttpError (env : Nat → AttemptResult)
    (statuses : Nat → Nat) (henv : ∀ k, env k = .httpError (statuses k))
    (maxRetries : Nat) :
    ∀ remaining attempt, 0 < remaining → attempt + remaining = maxRetries →
    downloadAttempts env maxRetries attempt remaining =
      { outcome := .failed ("HTTP错误 " ++ toString (statuses (maxRetries - 1))),
        attemptsMade := remaining,
        sleeps := (List.range' attempt (remaining - 1)).map (fun k => 2 ^ k),
        emptyDeletes := 0 } := by
  intro remaining
  induction remaining with
  | zero => omega
  | succ rem ih =>
    intro attempt _ hsum
    simp only [downloadAttempts, henv attempt, attemptError]
    rcases Nat.eq_zero_or_pos rem with hrem | hrem
    · subst hrem
      rw [if_neg (by omega)]
      have hatt : attempt = maxRetries - 1 := by omega
      simp [hatt, attemptDeletes]
    · rw [if_pos (by omega)]
      obtain ⟨r, rfl⟩ : ∃ r, rem = r + 1 := ⟨rem - 1, by omega⟩
      rw [ih (attempt + 1) (by omega) (by omega)]
      simp [attemptDeletes, henv attempt, List.range'_succ]

/-- C1: when every attempt raises an HTTP status error and maxRetries >= 1
(and the pre-existence check does not fire), the fetch executor performs
exactly maxRetries network attempts, sleeps 2^attempt seconds after every
failed attempt except the last (1s, 2s, 4s, ... for attempts 0, 1, 2, ...),
never sleeps after the final attempt, and returns Failed carrying the last
attempt's HTTP error message. -/
theorem claim_C1 (fileExists : Bool) (fileSize : Nat) (env : Nat → AttemptResult)
    (statuses : Nat → Nat) (maxRetries : Nat)
    (henv : ∀ k, env k = .httpError (statuses k)) (hmr : 1 ≤ maxRetries)
    (hpre : ¬(fileExists = true ∧ 0 < fileSize)) :
    download_pdf fileExists fileSize env maxRetries =
      { outcome := .failed ("HTTP错误 " ++ toString (statuses (maxRetries - 1))),
        attemptsMade := maxRetries,
        sleeps := (List.range (maxRetries - 1)).map (fun k => 2 ^ k),
        emptyDeletes := 0 } := by
  unfold download_pdf
  rw [if_neg hpre]
  rw [downloadAttempts_allHttpError env statuses henv maxRetries maxRetries 0
    (by omega) (by omega)]
  rw [List.range_eq_range']

/-- Witness for C1: three attempts against a permanent HTTP 500 — exactly
3 requests, waits of 1s and 2s, and the Failed outcome with the 500
message. -/
theorem claim_C1_witness :
    download_pdf false 0 (fun _ => AttemptResult.httpError 500) 3 =
      { outcome := .failed "HTTP错误 500", attemptsMade := 3, sleeps := [1, 2],
        emptyDeletes := 0 } := by
  rw [claim_C1 false 0 (fun _ => AttemptResult.httpError 500) (fun _ => 500) 3
    (fun k => rfl) (by decide) (by decide)]
  decide

theorem downloadAttempts_error_step (env : Nat → AttemptResult)
    (maxRetries attempt remaining : Nat) (msg : String)
    (herr : attemptError (env attempt) = some msg) :
    downloadAttempts env maxRetries attempt (remaining + 1) =
      if attempt < maxRetries - 1 then
        { outcome := (downloadAttempts env maxRetries (attempt + 1) remaining).outcome,
          attemptsMade :=
            (downloadAttempts env maxRetries (attempt + 1) remaining).attemptsMade + 1,
          sleeps := 2 ^ attempt :: (downloadAttempts env maxRetries (attempt + 1) remaining).sleeps,
          emptyDeletes := attemptDeletes (env attempt) +
            (downloadAttempts env maxRetries (attempt + 1) remaining).emptyDeletes }
      else
        { outcome := .failed msg, attemptsMade := 1, sleeps := [],
          emptyDeletes := attemptDeletes (env attempt) } := by
  simp only [downloadAttempts, herr]

theorem downloadAttempts_success_step (env : Nat → AttemptResult)
    (maxRetries attempt remaining : Nat)
    (herr : attemptError (env attempt) = none) :
    downloadAttempts env maxRetries attempt (remaining + 1) =
      { outcome := .success, attemptsMade := 1, sleeps := [], emptyDeletes := 0 } := by
  simp only [downloadAttempts, herr]

/-- C6: an attempt whose body is written completely but leaves a zero-byte
file deletes that empty file (one deletion counted) and is treated exactly
as a failed attempt under the retry policy: if it is not the last attempt,
the executor sleeps 2^attempt seconds and the final result is that of the
remaining attempts (so neither an immediate success nor a terminal
failure); if it is the last attempt, the result is Failed with the
empty-file message, still with the deletion performed. -/
theorem claim_C6 (env : Nat → AttemptResult) (maxRetries k : Nat)
    (hk : env k = .body 0) :
    (k + 1 < maxRetries →
      downloadAttempts env maxRetries k (maxRetries - k) =
        { outcome := (downloadAttempts env maxRetries (k + 1) (maxRetries - (k + 1))).outcome,
          attemptsMade :=
            (downloadAttempts env maxRetries (k + 1) (maxRetries - (k + 1))).attemptsMade + 1,
          sleeps := 2 ^ k :: (downloadAttempts env maxRetries (k + 1) (maxRetries - (k + 1))).sleeps,
          emptyDeletes :=
            1 + (downloadAttempts env maxRetries (k + 1) (maxRetries - (k + 1))).emptyDeletes }) ∧
    (k + 1 = maxRetries →
      downloadAttempts env maxRetries k (maxRetries - k) =
        { outcome := .failed "下载的文件为空", attemptsMade := 1, sleeps := [],
          emptyDeletes := 1 }) := by
  constructor
  · intro hlast
    have hrem : maxRetries - k = (maxRetries - (k + 1)) + 1 := by omega
    rw [hrem]
    rw [downloadAttempts_error_step env maxRetries k (maxRetries - (k + 1))
      "下载的文件为空" (by rw [hk]; rfl)]
    rw [if_pos (by omega)]
    rw [hk]
    simp [attemptDeletes]
  · intro hlast
    have hrem : maxRetries - k = 0 + 1 := by omega
    rw [hrem]
    rw [downloadAttempts_error_step env maxRetries k 0 "下载的文件为空" (by rw [hk]; rfl)]
    rw [if_neg (by omega)]
    rw [hk]
    simp [attemptDeletes]

/-- Witness for C6: with three allowed attempts, a zero-byte body on attempt
0 is deleted and retried (backoff 1s), and the non-empty body on attempt 1
then succeeds; a zero-byte body on the final allowed attempt yields the
terminal empty-file failure with the file deleted. -/
theorem claim_C6_witness :
    downloadAttempts (fun k => if k = 0 then AttemptResult.body 0 else AttemptResult.body 7)
        3 0 (3 - 0) =
      { outcome := .success, attemptsMade := 2, sleeps := [1], emptyDeletes := 1 } ∧
    downloadAttempts (fun _ => AttemptResult.body 0) 1 0 (1 - 0) =
      { outcome := .failed "下载的文件为空", attemptsMade := 1, sleeps := [],
        emptyDeletes := 1 } := by
  constructor
  · rw [(claim_C6 (fun k => if k = 0 then AttemptResult.body 0 else AttemptResult.body 7)
      3 0 rfl).1 (by decide)]
    decide
  · exact (claim_C6 (fun _ => AttemptResult.body 0) 1 0 rfl).2 rfl

/-! ## The batch orchestrator (main) -/

/-- One spreadsheet row as main reads it: the stringified first column, the
stringified third column, and the raw last column (None for a missing
cell). -/
structure Row where
  index : String
  title : String
  remark : Option String

/-- One entry of failed_items, with the six fields appended by main; the
source spells them 行号 (row number), 序号 (row index string), 标题 (title),
链接 (url), 文件名 (filename), 错误 (error message). -/
structure FailureRecord where
  rowNumber : Nat
  indexStr : String
  titleStr : String
  url : String
  filename : String
  errorMsg : Option String
deriving DecidableEq

/-- The run-scoped mutable state of main: the three counters (skip_count is
declared but never incremented in the source) and the failure records. -/
structure RunState where
  success_count : Nat
  fail_count : Nat
  skip_count : Nat
  failed_items : List FailureRecord
deriving DecidableEq

/-- The external circumstances of one call to download_pdf: the initial
state of the target path and the network behaviour of each attempt. -/
structure FetchWorld where
  fileExists : Bool
  fileSize : Nat
  env : Nat → AttemptResult

/-- The first component of the Python pair returned by download_pdf: true
for a fresh write and for a skip, false on exhaustion. -/
def FetchResult.successFlag (r : FetchResult) : Bool :=
  match r.outcome with
  | .failed _ => false
  | _ => true

/-- The second component of the Python pair returned by download_pdf: None
for a fresh write and for a skip, the last error message on exhaustion. -/
def FetchResult.errorMsg (r : FetchResult) : Option String :=
  match r.outcome with
  | .failed msg => some msg
  | _ => none

/-- Filename built by main for one URL of a row: a position suffix is added
exactly when the row yielded more than one URL, and the sanitizer is applied
to the constructed name. -/
def buildFilename (idxStr titleStr : String) (numUrls urlIdx : Nat) : String :=
  if numUrls > 1 then
    sanitize_filename (idxStr ++ "-" ++ titleStr ++ "-" ++ toString urlIdx ++ ".pdf")
  else
    sanitize_filename (idxStr ++ "-" ++ titleStr ++ ".pdf")

/-- The inner loop of main over the URLs of one row: urlIdx is the 1-based
position (enumerate start=1), ctr numbers the calls to download_pdf across
the whole run (main always passes the default max_retries of 3). Returns
the counter after the row together with the updated state. -/
def processRowUrls (world : Nat → FetchWorld) (rowNumber : Nat) (idxStr titleStr : String)
    (numUrls : Nat) : List String → Nat → Nat → RunState → Nat × RunState
  | [], _, ctr, st => (ctr, st)
  | url :: rest, urlIdx, ctr, st =>
    if (download_pdf (world ctr).fileExists (world ctr).fileSize
        (world ctr).env 3).successFlag then
      processRowUrls world rowNumber idxStr titleStr numUrls rest (urlIdx + 1) (ctr + 1)
        { success_count := st.success_count + 1, fail_count := st.fail_count,
          skip_count := st.skip_count, failed_items := st.failed_items }
    else
      processRowUrls world rowNumber idxStr titleStr numUrls rest (urlIdx + 1) (ctr + 1)
        { success_count := st.success_count, fail_count := st.fail_count + 1,
          skip_count := st.skip_count,
          failed_items := st.failed_items ++
            [{ rowNumber := rowNumber, indexStr := idxStr, titleStr := titleStr, url := url,
               filename := buildFilename idxStr titleStr numUrls urlIdx,
               errorMsg := (download_pdf (world ctr).fileExists (world ctr).fileSize
                 (world ctr).env 3).errorMsg }] }

/-- The outer loop of main over the rows: idx is the 0-based iterrows index
(行号 is idx + 1); a row whose remark yields no URLs is skipped without
touching counters or the call counter. -/
def processRows (world : Nat → FetchWorld) : List Row → Nat → Nat → RunState → RunState
  | [], _, _, st => st
  | row :: rest, idx, ctr, st =>
    if (extract_urls row.remark).isEmpty then
      processRows world rest (idx + 1) ctr st
    else
      processRows world rest (idx + 1)
        (processRowUrls world (idx + 1) row.index row.title
          (extract_urls row.remark).length (extract_urls row.remark) 1 ctr st).1
        (processRowUrls world (idx + 1) row.index row.title
          (extract_urls row.remark).length (extract_urls row.remark) 1 ctr st).2

/-- The counters and failure list as initialized by main before the loop. -/
def initState : RunState :=
  { success_count := 0, fail_count := 0, skip_count := 0, failed_items := [] }

/-- A whole run of main over the given rows, under the given world. -/
def mainRun (world : Nat → FetchWorld) (rows : List Row) : RunState :=
  processRows world rows 0 0 initState

/-- The gate (if failed_items:) under which main writes both failure ledger
artifacts — the JSON array of records (fields 行号, 序号, 标题, 链接,
文件名, 错误) and the human-readable text file. -/
def producesFailureArtifacts (st : RunState) : Bool :=
  !st.failed_items.isEmpty

/-- Total number of FetchTargets a list of rows gives rise to: rows whose
remark yields no URLs contribute zero. -/
def numTargets (rows : List Row) : Nat :=
  (rows.map (fun row => (extract_urls row.remark).length)).sum

/-- The success flag of the i-th call to download_pdf in a run (calls are
numbered globally in order, and main always uses max_retries = 3). -/
def callSuccess (world : Nat → FetchWorld) (i : Nat) : Bool :=
  (download_pdf (world i).fileExists (world i).fileSize (world i).env 3).successFlag

/-- Number of failed calls among the n consecutive calls starting at c. -/
def numFailedCalls (world : Nat → FetchWorld) (c n : Nat) : Nat :=
  ((List.range' c n).filter (fun i => !callSuccess world i)).length

/-! ## Orchestrator lemmas -/

theorem numFailedCalls_succ (world : Nat → FetchWorld) (c n : Nat) :
    numFailedCalls world c (n + 1) =
      (if callSuccess world c = false then 1 else 0) + numFailedCalls world (c + 1) n := by
  unfold numFailedCalls
  rw [List.range'_succ, List.filter_cons]
  cases hc : callSuccess world c with
  | false => simp [hc]; omega
  | true => simp [hc]

theorem numFailedCalls_le (world : Nat → FetchWorld) (c n : Nat) :
    numFailedCalls world c n ≤ n := by
  unfold numFailedCalls
  calc ((List.range' c n).filter (fun i => !callSuccess world i)).length
      ≤ (List.range' c n).length := List.length_filter_le _ _
    _ = n := by simp

theorem numFailedCalls_add (world : Nat → FetchWorld) (c m n : Nat) :
    numFailedCalls world c (m + n) =
      numFailedCalls world c m + numFailedCalls world (c + m) n := by
  unfold numFailedCalls
  rw [Nat.add_comm m n, ← List.range'_append_1 c m n, List.filter_append,
    List.length_append]

theorem processRowUrls_ok_step (world : Nat → FetchWorld) (rowNumber : Nat)
    (idxStr titleStr : String) (numUrls : Nat) (url : String) (rest : List String)
    (urlIdx ctr : Nat) (st : RunState) (hc : callSuccess world ctr = true) :
    processRowUrls world rowNumber idxStr titleStr numUrls (url :: rest) urlIdx ctr st =
      processRowUrls world rowNumber idxStr titleStr numUrls rest (urlIdx + 1) (ctr + 1)
        { success_count := st.success_count + 1, fail_count := st.fail_count,
          skip_count := st.skip_count, failed_items := st.failed_items } := by
  have hc' : (download_pdf (world ctr).fileExists (world ctr).fileSize
      (world ctr).env 3).successFlag = true := hc
  simp only [processRowUrls, hc', if_true]

theorem processRowUrls_fail_step (world : Nat → FetchWorld) (rowNumber : Nat)
    (idxStr titleStr : String) (numUrls : Nat) (url : String) (rest : List String)
    (urlIdx ctr : Nat) (st : RunState) (hc : callSuccess world ctr = false) :
    processRowUrls world rowNumber idxStr titleStr numUrls (url :: rest) urlIdx ctr st =
      processRowUrls world rowNumber idxStr titleStr numUrls rest (urlIdx + 1) (ctr + 1)
        { success_count := st.success_count, fail_count := st.fail_count + 1,
          skip_count := st.skip_count,
          failed_items := st.failed_items ++
            [{ rowNumber := rowNumber, indexStr := idxStr, titleStr := titleStr, url := url,
               filename := buildFilename idxStr titleStr numUrls urlIdx,
               errorMsg := (download_pdf (world ctr).fileExists (world ctr).fileSize
                 (world ctr).env 3).errorMsg }] } := by
  have hc' : (download_pdf (world ctr).fileExists (world ctr).fileSize
      (world ctr).env 3).successFlag = false := hc
  simp only [processRowUrls, hc', Bool.false_eq_true, if_false]

theorem processRowUrls_counts (world : Nat → FetchWorld) (rowNumber : Nat)
    (idxStr titleStr : String) (numUrls : Nat) :
    ∀ (urls : List String) (urlIdx ctr : Nat) (st : RunState),
      (processRowUrls world rowNumber idxStr titleStr numUrls urls urlIdx ctr st).1 =
        ctr + urls.length ∧
      (processRowUrls world rowNumber idxStr titleStr numUrls urls urlIdx ctr st).2.success_count =
        st.success_count + (urls.length - numFailedCalls world ctr urls.length) ∧
      (processRowUrls world rowNumber idxStr titleStr numUrls urls urlIdx ctr st).2.fail_count =
        st.fail_count + numFailedCalls world ctr urls.length ∧
      (processRowUrls world rowNumber idxStr titleStr numUrls urls urlIdx ctr st).2.failed_items.length =
        st.failed_items.length + numFailedCalls world ctr urls.length := by
  intro urls
  induction urls with
  | nil =>
    intro urlIdx ctr st
    refine ⟨by simp [processRowUrls], ?_, ?_, ?_⟩ <;>
      simp [processRowUrls, numFailedCalls]
  | cons url rest ih =>
    intro urlIdx ctr st
    have hle := numFailedCalls_le world (ctr + 1) rest.length
    cases hc : callSuccess world ctr with
    | true =>
      rw [processRowUrls_ok_step world rowNumber idxStr titleStr numUrls url rest urlIdx ctr st hc]
      obtain ⟨h1, h2, h3, h4⟩ := ih (urlIdx + 1) (ctr + 1)
        { success_count := st.success_count + 1, fail_count := st.fail_count,
          skip_count := st.skip_count, failed_items := st.failed_items }
      simp only [List.length_cons, numFailedCalls_succ world ctr rest.length, hc] at *
      refine ⟨by rw [h1]; omega, ?_, ?_, ?_⟩
      · rw [h2]; simp; try omega
      · rw [h3]; simp; try omega
      · rw [h4]; simp; try omega
    | false =>
      rw [processRowUrls_fail_step world rowNumber idxStr titleStr numUrls url rest urlIdx ctr st hc]
      obtain ⟨h1, h2, h3, h4⟩ := ih (urlIdx + 1) (ctr + 1)
        { success_count := st.success_count, fail_count := st.fail_count + 1,
          skip_count := st.skip_count,
          failed_items := st.failed_items ++
            [{ rowNumber := rowNumber, indexStr := idxStr, titleStr := titleStr, url := url,
               filename := buildFilename idxStr titleStr numUrls urlIdx,
               errorMsg := (download_pdf (world ctr).fileExists (world ctr).fileSize
                 (world ctr).env 3).errorMsg }] }
      simp only [List.length_cons, numFailedCalls_succ world ctr rest.length, hc] at *
      refine ⟨by rw [h1]; omega, ?_, ?_, ?_⟩
      · rw [h2]; simp; omega
      · rw [h3]; simp; omega
      · rw [h4]; simp [List.length_append]; omega

theorem numTargets_cons (row : Row) (rest : List Row) :
    numTargets (row :: rest) = (extract_urls row.remark).length + numTargets rest := by
  simp [numTargets]

theorem processRows_counts (world : Nat → FetchWorld) :
    ∀ (rows : List Row) (idx ctr : Nat) (st : RunState),
      (processRows world rows idx ctr st).success_count =
        st.success_count + (numTargets rows - numFailedCalls world ctr (numTargets rows)) ∧
      (processRows world rows idx ctr st).fail_count =
        st.fail_count + numFailedCalls world ctr (numTargets rows) ∧
      (processRows world rows idx ctr st).failed_items.length =
        st.failed_items.length + numFailedCalls world ctr (numTargets rows) := by
  intro rows
  induction rows with
  | nil =>
    intro idx ctr st
    refine ⟨?_, ?_, ?_⟩ <;> simp [processRows, numTargets, numFailedCalls]
  | cons row rest ih =>
    intro idx ctr st
    rw [numTargets_cons]
    by_cases he : (extract_urls row.remark).isEmpty = true
    · have hlen : (extract_urls row.remark).length = 0 := by
        rw [List.isEmpty_iff] at he
        simp [he]
      simp only [processRows, he, if_true]
      rw [hlen]
      simpa using ih (idx + 1) ctr st
    · simp only [processRows, he, Bool.false_eq_true, if_false]
      obtain ⟨p1, p2, p3, p4⟩ := processRowUrls_counts world (idx + 1) row.index row.title
        (extract_urls row.remark).length (extract_urls row.remark) 1 ctr st
      obtain ⟨q1, q2, q3⟩ := ih (idx + 1)
        (processRowUrls world (idx + 1) row.index row.title
          (extract_urls row.remark).length (extract_urls row.remark) 1 ctr st).1
        (processRowUrls world (idx + 1) row.index row.title
          (extract_urls row.remark).length (extract_urls row.remark) 1 ctr st).2
      rw [q1, q2, q3, p1, p2, p3, p4]
      rw [numFailedCalls_add world ctr (extract_urls row.remark).length (numTargets rest)]
      have b1 := numFailedCalls_le world ctr (extract_urls row.remark).length
      have b2 := numFailedCalls_le world (ctr + (extract_urls row.remark).length)
        (numTargets rest)
      refine ⟨by omega, by omega, by omega⟩

/-- C4: in every run, the final success count plus the final failure count
equals the number of FetchTargets attempted (rows whose remark yields zero
URLs contribute no targets by the definition of numTargets); the failure
count equals the length of the failure-record list (each Failed outcome
appends exactly one record, each Success or Skipped outcome only adds one
to the success count); and the failure count is exactly the number of
failed download calls. -/
theorem claim_C4 (world : Nat → FetchWorld) (rows : List Row) :
    (mainRun world rows).success_count + (mainRun world rows).fail_count =
      numTargets rows ∧
    (mainRun world rows).fail_count = (mainRun world rows).failed_items.length ∧
    (mainRun world rows).fail_count = numFailedCalls world 0 (numTargets rows) := by
  obtain ⟨h1, h2, h3⟩ := processRows_counts world rows 0 0 initState
  have hle := numFailedCalls_le world 0 (numTargets rows)
  unfold mainRun
  rw [h1, h2, h3]
  simp [initState]
  omega

theorem numFailedCalls_pos_iff (world : Nat → FetchWorld) (c n : Nat) :
    0 < numFailedCalls world c n ↔
      ∃ i, c ≤ i ∧ i < c + n ∧ callSuccess world i = false := by
  unfold numFailedCalls
  rw [List.length_pos, Ne, List.filter_eq_nil_iff]
  push_neg
  constructor
  · rintro ⟨i, hmem, hp⟩
    rw [List.mem_range'_1] at hmem
    exact ⟨i, hmem.1, hmem.2, by simpa using hp⟩
  · rintro ⟨i, h1, h2, h3⟩
    exact ⟨i, List.mem_range'_1.mpr ⟨h1, h2⟩, by simp [h3]⟩

/-- C8: the gate under which main writes the two failure ledger artifacts
(the JSON array of records with fields 行号, 序号, 标题, 链接, 文件名, 错误,
and the human-readable text form) is taken exactly when at least one
download call of the run failed; when every FetchTarget succeeds or skips,
no failure artifacts are produced. -/
theorem claim_C8 (world : Nat → FetchWorld) (rows : List Row) :
    producesFailureArtifacts (mainRun world rows) = true ↔
      ∃ i, i < numTargets rows ∧ callSuccess world i = false := by
  obtain ⟨h1, h2, h3⟩ := processRows_counts world rows 0 0 initState
  have hiff := numFailedCalls_pos_iff world 0 (numTargets rows)
  have hlen : (mainRun world rows).failed_items.length =
      numFailedCalls world 0 (numTargets rows) := by
    unfold mainRun
    rw [h3]
    simp [initState]
  constructor
  · intro h
    have hne : (mainRun world rows).failed_items ≠ [] := by
      unfold producesFailureArtifacts at h
      simpa using h
    have hpos : 0 < (mainRun world rows).failed_items.length := List.length_pos.mpr hne
    rw [hlen] at hpos
    obtain ⟨i, hi0, hi, hf⟩ := hiff.mp hpos
    exact ⟨i, by omega, hf⟩
  · rintro ⟨i, hi, hf⟩
    have hpos : 0 < numFailedCalls world 0 (numTargets rows) :=
      hiff.mpr ⟨i, Nat.zero_le i, by omega, hf⟩
    rw [← hlen] at hpos
    have hne : (mainRun world rows).failed_items ≠ [] := by
      intro hnil
      rw [hnil] at hpos
      simp at hpos
    unfold producesFailureArtifacts
    simpa using hne

theorem processRowUrls_allfail_filenames (world : Nat → FetchWorld)
    (hfail : ∀ i, callSuccess world i = false) (rowNumber : Nat)
    (idxStr titleStr : String) (numUrls : Nat) :
    ∀ (urls : List String) (urlIdx ctr : Nat) (st : RunState),
      (processRowUrls world rowNumber idxStr titleStr numUrls urls urlIdx ctr st).2.failed_items.map
          (fun r => r.filename) =
        st.failed_items.map (fun r => r.filename) ++
          (List.range' urlIdx urls.length).map
            (fun p => buildFilename idxStr titleStr numUrls p) := by
  intro urls
  induction urls with
  | nil =>
    intro urlIdx ctr st
    simp [processRowUrls]
  | cons url rest ih =>
    intro urlIdx ctr st
    rw [processRowUrls_fail_step world rowNumber idxStr titleStr numUrls url rest urlIdx
      ctr st (hfail ctr)]
    rw [ih (urlIdx + 1) (ctr + 1)
      { success_count := st.success_count, fail_count := st.fail_count + 1,
        skip_count := st.skip_count,
        failed_items := st.failed_items ++
          [{ rowNumber := rowNumber, indexStr := idxStr, titleStr := titleStr, url := url,
             filename := buildFilename idxStr titleStr numUrls urlIdx,
             errorMsg := (download_pdf (world ctr).fileExists (world ctr).fileSize
               (world ctr).env 3).errorMsg }] }]
    simp [List.range'_succ]

theorem processRows_allfail_filenames (world : Nat → FetchWorld)
    (hfail : ∀ i, callSuccess world i = false) :
    ∀ (rows : List Row) (idx ctr : Nat) (st : RunState),
      (processRows world rows idx ctr st).failed_items.map (fun r => r.filename) =
        st.failed_items.map (fun r => r.filename) ++
          (rows.map (fun row =>
            (List.range' 1 (extract_urls row.remark).length).map
              (fun p => buildFilename row.index row.title
                (extract_urls row.remark).length p))).flatten := by
  intro rows
  induction rows with
  | nil =>
    intro idx ctr st
    simp [processRows]
  | cons row rest ih =>
    intro idx ctr st
    by_cases he : (extract_urls row.remark).isEmpty = true
    · have hlen : (extract_urls row.remark).length = 0 := by
        rw [List.isEmpty_iff] at he
        simp [he]
      simp only [processRows, he, if_true]
      rw [ih (idx + 1) ctr st]
      simp [hlen]
    · simp only [processRows, he, Bool.false_eq_true, if_false]
      rw [ih (idx + 1)
        (processRowUrls world (idx + 1) row.index row.title
          (extract_urls row.remark).length (extract_urls row.remark) 1 ctr st).1
        (processRowUrls world (idx + 1) row.index row.title
          (extract_urls row.remark).length (extract_urls row.remark) 1 ctr st).2]
      rw [processRowUrls_allfail_filenames world hfail (idx + 1) row.index row.title
        (extract_urls row.remark).length (extract_urls row.remark) 1 ctr st]
      simp [List.append_assoc]

/-- C5: under a world in which every download call fails (so that every
FetchTarget leaves an observable failure record), the filenames carried by
the run's failure records are, row by row in order and per row in
extraction order, buildFilename applied to the 1-based positions 1..n of
the row's n extracted URLs — that is, sanitize applied to
index-title.pdf when the row yields exactly one URL and to
index-title-position.pdf when it yields more than one. -/
theorem claim_C5 (world : Nat → FetchWorld) (rows : List Row)
    (hfail : ∀ i, callSuccess world i = false) :
    (mainRun world rows).failed_items.map (fun r => r.filename) =
      (rows.map (fun row =>
        (List.range' 1 (extract_urls row.remark).length).map
          (fun p => buildFilename row.index row.title
            (extract_urls row.remark).length p))).flatten := by
  have h := processRows_allfail_filenames world hfail rows 0 0 initState
  unfold mainRun
  rw [h]
  simp [initState]

/-- Witness for C5: a single-URL row gets index-title.pdf and a two-URL row
gets index-title-1.pdf and index-title-2.pdf, in extraction order. -/
theorem claim_C5_witness :
    (mainRun
        (fun _ => { fileExists := false, fileSize := 0,
                    env := fun _ => AttemptResult.httpError 404 })
        [{ index := "1", title := "a", remark := some "https://x.y" },
         { index := "2", title := "b", remark := some "https://a.b https://a.b" }]).failed_items.map
        (fun r => r.filename) = ["1-a.pdf", "2-b-1.pdf", "2-b-2.pdf"] := by
  rw [claim_C5
    (fun _ => { fileExists := false, fileSize := 0,
                env := fun _ => AttemptResult.httpError 404 })
    [{ index := "1", title := "a", remark := some "https://x.y" },
     { index := "2", title := "b", remark := some "https://a.b https://a.b" }]
    (fun i => rfl)]
  decide
